import Mathlib

/-!
Verification of the Coronado MySQL plugin (schema migration orchestrator and
fixture loader). The definitions below are a shallow embedding of the Python
sources `MySQLPlugin/__init__.py` (command-line migration orchestrator) and
`MySQLPlugin.py` (fixture installation). Database effects are made explicit:
each operation returns, besides its result, a trace of connection, module
invocation and logging events, and fixture installation threads an explicit
database state (autocommit: every successful insert is immediately committed).
-/

namespace MySQLPlugin

/-! ## Fixture data model (`MySQLPlugin.py`) -/

/-- A JSON scalar value appearing in a fixture row. -/
inductive JVal where
  | str (s : String)
  | num (n : Int)
  deriving DecidableEq, Repr, BEq

/-- A fixture row: an insertion-ordered mapping from field names to values
(Python dicts preserve insertion order; `row.keys()` and `row.values()`
enumerate in the same order). -/
abbrev RowData := List (String × JVal)

/-- Number of `%` characters in a string; each `%s` placeholder contributes
exactly one, so for queries whose table and column names are `%`-free this
counts the placeholders. -/
def pctCount (s : String) : Nat := s.data.count '%'

/-- Python's `','.join(keys)`. -/
def joinComma : List String → String
  | [] => ""
  | [k] => k
  | k :: k2 :: rest => k ++ "," ++ joinComma (k2 :: rest)

/-- Python's string repetition `s * n` (negative counts give `""`, which the
Nat-subtraction caller reproduces). -/
def repeatStr (s : String) : Nat → String
  | 0 => ""
  | n + 1 => s ++ repeatStr s n

/-- The VALUES clause body `'%s' + ',%s' * (len(row) - 1)` from
`_installFixture` / `importData`. For zero fields Python's negative repeat
yields the single placeholder `%s`, mirrored here by Nat subtraction. -/
def valuesPlaceholders (n : Nat) : String := "%s" ++ repeatStr ",%s" (n - 1)

/-- The insert statement built per fixture row:
`'INSERT INTO ' + tableName + ' (' + ','.join(row.keys()) + ') VALUES (' +
'%s' + ',%s' * (len(row)-1) + ')'`. -/
def rowInsertQuery (tableName : String) (keys : List String) : String :=
  "INSERT INTO " ++ tableName ++ " (" ++ joinComma keys ++ ") VALUES (" ++
    valuesPlaceholders keys.length ++ ")"

/-- `row.keys()` in order. -/
def insertColumns (row : RowData) : List String := row.map Prod.fst

/-- `tuple(row.values())` in order. -/
def insertParams (row : RowData) : List JVal := row.map Prod.snd

/-- The driver binds positional `%s` placeholders to the parameter tuple;
binding succeeds exactly when the counts agree. -/
def bindOk (query : String) (ps : List JVal) : Bool :=
  pctCount query == ps.length

/-- Committed database rows, as (table, row) pairs in commit order
(autocommit is on, so every successful insert is committed at once). -/
abbrev DBState := List (String × RowData)

/-- Rows committed to a given table. -/
def rowsOf (db : DBState) (t : String) : List RowData :=
  (db.filter (fun p => p.1 == t)).map Prod.snd

/-- Abstract uniqueness constraints: `u t r1 r2` holds when a committed row
`r1` of table `t` conflicts with a new row `r2`. -/
abbrev UniqSpec := String → RowData → RowData → Bool

/-- Failure modes of `cursor.execute` on an insert. -/
inductive ExecErr where
  | integrityError
  | programmingError
  deriving DecidableEq, Repr

/-- `cursor.execute(query, tuple(row.values()))` for a fixture row: a
placeholder/parameter count mismatch is a driver `ProgrammingError`; a
uniqueness violation against a committed row is an `IntegrityError`;
otherwise the row is committed. -/
def cursorExecuteInsert (u : UniqSpec) (db : DBState) (tableName : String)
    (row : RowData) : Except ExecErr DBState :=
  if !(bindOk (rowInsertQuery tableName (insertColumns row)) (insertParams row)) then
    .error .programmingError
  else if (rowsOf db tableName).any (fun r => u tableName r row) then
    .error .integrityError
  else
    .ok (db ++ [(tableName, row)])

/-- Observable fixture-loading events. -/
inductive FixEvent where
  | exec (tableName : String) (row : RowData)
  | logConflict (tableName : String)
  | tempFileWrite (appName : String)
  | promptOperator (appName : String)
  deriving DecidableEq, Repr

/-- Errors escaping fixture installation. `fixtureConflict` is the propagated
`IntegrityError` (the spec's FixtureConflictError); `keyError` is Python's
`KeyError` when a `tableOrder` name is absent from the document; `dynError`
marks document shapes whose Python behavior depends on duck typing and is
relied on by no theorem below. -/
inductive FixErr where
  | fixtureConflict
  | programmingError
  | keyError (tableName : String)
  | dynError
  deriving DecidableEq, Repr

/-- Result of a fixture-installation call. -/
structure FixOut where
  db : DBState
  events : List FixEvent
  err : Option FixErr
  deriving DecidableEq, Repr

/-- A (sub-)fixture document: ordered table entries plus the optional
`tableOrder` key. -/
structure SubFixture where
  tables : List (String × List RowData)
  tableOrder : Option (List String)
  deriving DecidableEq, Repr

/-- The per-table row loop of `_installFixture`: each row's insert statement
is executed; on `IntegrityError` with `ignoreConflicts` the conflict is
logged and the loop continues, otherwise the exception propagates; any other
execute failure propagates uncaught. -/
def installRows (u : UniqSpec) (ignoreConflicts : Bool) (tableName : String) :
    List RowData → DBState → FixOut
  | [], db => ⟨db, [], none⟩
  | row :: rest, db =>
    match cursorExecuteInsert u db tableName row with
    | .ok db1 =>
      let out := installRows u ignoreConflicts tableName rest db1
      ⟨out.db, .exec tableName row :: out.events, out.err⟩
    | .error .integrityError =>
      if ignoreConflicts then
        let out := installRows u ignoreConflicts tableName rest db
        ⟨out.db, .exec tableName row :: .logConflict tableName :: out.events, out.err⟩
      else
        ⟨db, [.exec tableName row], some .fixtureConflict⟩
    | .error .programmingError =>
      ⟨db, [.exec tableName row], some .programmingError⟩

/-- The `for tableName in fixture['tableOrder']` loop of `_installFixture`:
`fixture[tableName]` raises `KeyError` when absent, and any error escaping a
table's rows aborts the remaining tables as well. -/
def installTables (u : UniqSpec) (ignoreConflicts : Bool) (fx : SubFixture) :
    List String → DBState → FixOut
  | [], db => ⟨db, [], none⟩
  | t :: rest, db =>
    match fx.tables.lookup t with
    | none => ⟨db, [], some (.keyError t)⟩
    | some rows =>
      let out1 := installRows u ignoreConflicts t rows db
      match out1.err with
      | some e => ⟨out1.db, out1.events, some e⟩
      | none =>
        let out2 := installTables u ignoreConflicts fx rest out1.db
        ⟨out2.db, out1.events ++ out2.events, out2.err⟩

/-- `_installFixture(database, fixture, ignoreConflicts)`: if `'tableOrder'
not in fixture` the function returns at once, installing nothing; otherwise
exactly the tables listed in `fixture['tableOrder']` are processed, in that
order. -/
def installFixtureFlat (u : UniqSpec) (ignoreConflicts : Bool)
    (fx : SubFixture) (db : DBState) : FixOut :=
  match fx.tableOrder with
  | none => ⟨db, [], none⟩
  | some order => installTables u ignoreConflicts fx order db

/-- Value of one key of a top-level fixture document. -/
inductive TopVal where
  | tables (rs : List RowData)
  | order (ns : List String)
  | app (fx : SubFixture)
  deriving DecidableEq, Repr

/-- A top-level fixture document: an ordered JSON object. -/
abbrev TopDoc := List (String × TopVal)

/-- `'self' in fixture`. -/
def hasSelf (doc : TopDoc) : Bool := doc.any (fun p => p.1 == "self")

/-- Reinterpret a document without a `self` key as a flat table→rows mapping
(the `tableOrder` key holding the explicit ordering). Shapes that would make
Python's duck-typed accesses misbehave yield `none`. -/
def asFlat : TopDoc → Option SubFixture
  | [] => some ⟨[], none⟩
  | ("tableOrder", .order ns) :: rest =>
    match asFlat rest with
    | some fx =>
      match fx.tableOrder with
      | none => some ⟨fx.tables, some ns⟩
      | some _ => none
    | none => none
  | (k, .tables rs) :: rest =>
    match asFlat rest with
    | some fx => some ⟨(k, rs) :: fx.tables, fx.tableOrder⟩
    | none => none
  | _ => none

/-- The multi-application branch of `installAFixture`: iterate the document's
entries in order; the `self` entry is installed into the current connection,
and every other entry is written to a temporary JSON file after which the
operator is prompted to confirm; an error escaping the `self` installation
aborts the remaining entries. -/
def installMulti (u : UniqSpec) (ignoreConflicts : Bool) :
    TopDoc → DBState → FixOut
  | [], db => ⟨db, [], none⟩
  | (appName, v) :: rest, db =>
    if appName == "self" then
      match v with
      | .app fx =>
        let out1 := installFixtureFlat u ignoreConflicts fx db
        match out1.err with
        | some e => ⟨out1.db, out1.events, some e⟩
        | none =>
          let out2 := installMulti u ignoreConflicts rest out1.db
          ⟨out2.db, out1.events ++ out2.events, out2.err⟩
      | _ => ⟨db, [], some .dynError⟩
    else
      let out2 := installMulti u ignoreConflicts rest db
      ⟨out2.db, .tempFileWrite appName :: .promptOperator appName :: out2.events,
        out2.err⟩

/-- `installAFixture(database, fixture, ignoreConflicts)`: a document without
a `self` key is the current application's flat fixture; otherwise each entry
is dispatched by application name. -/
def installAFixture (u : UniqSpec) (ignoreConflicts : Bool) (doc : TopDoc)
    (db : DBState) : FixOut :=
  if hasSelf doc then
    installMulti u ignoreConflicts doc db
  else
    match asFlat doc with
    | some fx => installFixtureFlat u ignoreConflicts fx db
    | none => ⟨db, [], some .dynError⟩

/-! ## Migration orchestrator (`MySQLPlugin/__init__.py`) -/

/-- A row of the reserved `metadata` table. The source column `attribute` is
rendered `attrName` because `attribute` is reserved in Lean. -/
structure MetaRow where
  attrName : String
  value : String
  deriving DecidableEq, Repr

/-- Outcome of the metadata `SELECT` issued by `getSchemaVersion`:
either the result rows (`fetchone` yields the first), a
`pymysql.ProgrammingError` carrying its engine error code, or any other
exception raised by the driver (caught by no handler in the source). -/
inductive QueryOutcome where
  | rows (rs : List MetaRow)
  | programmingError (code : Nat)
  | otherError
  deriving DecidableEq, Repr

/-- A resolved schema-version module: which of the optional procedures
`upgrade`, `overlay`, `trim` it defines, whether the defined ones raise when
invoked, and its optional `previousVersion` attribute. -/
structure VersionModule where
  hasUpgrade : Bool
  hasOverlay : Bool
  hasTrim : Bool
  upgradeRaises : Bool
  overlayRaises : Bool
  trimRaises : Bool
  previousVersion : Option String
  deriving DecidableEq, Repr

/-- Ambient context of a command invocation: the registry's ordered version
list (`mysqlSchemaPackage.versions`), module resolution
(`importlib.import_module`, `none` meaning `ImportError`), the metadata query
outcome on this run, and the operator's answer at the trim confirmation gate
(`true` for `'y'` after `askYesOrNoQuestion`'s retry loop). -/
structure Ctx where
  versions : List String
  findModule : String → Option VersionModule
  metadataQuery : QueryOutcome
  confirmAnswer : Bool

/-- Connections are opened either by `getSchemaVersion` (inspection) or
around a migration-module invocation (migration). -/
inductive ConnKind where
  | inspection
  | migration
  deriving DecidableEq, Repr

/-- Observable orchestrator events. -/
inductive Ev where
  | connOpened (k : ConnKind)
  | connClosed (k : ConnKind)
  | moduleUpgrade (version fromVersion : String)
  | moduleOverlay (version fromVersion : String)
  | moduleTrim (version trimVersion : String)
  | logCancel
  deriving DecidableEq, Repr

/-- Kinds of `CommandError` raised by the orchestrator. -/
inductive CmdKind where
  | noSchemaInstalled
  | alreadyAtVersion (v : String)
  | unsupportedOperation (version capability : String)
  | schemaReadError
  deriving DecidableEq, Repr

/-- Errors escaping an orchestrator operation. -/
inductive OpErr where
  | commandError (k : CmdKind)
  | dbError (code : Nat)
  | otherDbError
  | importError (version : String)
  | indexError
  | nameError (n : String)
  | attributeError (attr : String)
  | moduleError
  deriving DecidableEq, Repr

deriving instance DecidableEq for Except

/-- Result of an orchestrator operation: its event trace and its value or
escaping error. -/
structure OpOut (α : Type) where
  trace : List Ev
  result : Except OpErr α
  deriving DecidableEq, Repr

/-- Trace of the scoped inspection connection: `with closing(...)` closes it
on every return and error path. -/
def inspTrace : List Ev := [.connOpened .inspection, .connClosed .inspection]

/-- `getSchemaVersion`: query the metadata table inside two nested
`with closing(...)` scopes; engine error 1146 (table does not exist) yields
`None`, other `ProgrammingError`s and other exceptions propagate, zero rows
is a `CommandError`, and otherwise the row's `value` field is returned. -/
def getSchemaVersion (ctx : Ctx) : OpOut (Option String) :=
  { trace := inspTrace
    result :=
      match ctx.metadataQuery with
      | .programmingError code =>
        if code = 1146 then .ok none else .error (.dbError code)
      | .otherError => .error .otherDbError
      | .rows rs =>
        match rs.head? with
        | none => .error (.commandError .schemaReadError)
        | some row => .ok (some row.value) }

/-- `if targetVersion is None: targetVersion = versions[-1]` (an empty
registry would raise `IndexError`). -/
def resolveTarget (ctx : Ctx) (targetVersion : Option String) : Option String :=
  match targetVersion with
  | some v => some v
  | none => ctx.versions.getLast?

/-- A migration-module invocation inside `with closing(getMysqlConnection(...))`:
the connection closes after the body whether or not the module raises. -/
def runMigration (raises : Bool) (callEv : Ev) : OpOut Unit :=
  { trace := [.connOpened .migration, callEv, .connClosed .migration]
    result := if raises then .error .moduleError else .ok () }

/-- `CommandLinePlugin.upgrade(targetVersion=None)`: read the current version
(errors propagate); `None` raises no-schema; a supplied target equal to the
current version raises already-installed BEFORE the omitted target is
defaulted to `versions[-1]`; then the target module is imported, its
`upgrade` attribute required, and invoked with `fromVersion=currentVersion`
on a scoped connection. -/
def upgrade (ctx : Ctx) (targetVersion : Option String) : OpOut Unit :=
  let insp := getSchemaVersion ctx
  match insp.result with
  | .error e => ⟨insp.trace, .error e⟩
  | .ok none => ⟨insp.trace, .error (.commandError .noSchemaInstalled)⟩
  | .ok (some currentVersion) =>
    if targetVersion = some currentVersion then
      ⟨insp.trace, .error (.commandError (.alreadyAtVersion currentVersion))⟩
    else
      match resolveTarget ctx targetVersion with
      | none => ⟨insp.trace, .error .indexError⟩
      | some tv =>
        match ctx.findModule tv with
        | none => ⟨insp.trace, .error (.importError tv)⟩
        | some m =>
          if m.hasUpgrade then
            let run := runMigration m.upgradeRaises (.moduleUpgrade tv currentVersion)
            ⟨insp.trace ++ run.trace, run.result⟩
          else
            ⟨insp.trace, .error (.commandError (.unsupportedOperation tv "upgrade"))⟩

/-- `CommandLinePlugin.overlay(targetVersion=None)`: identical structure to
`upgrade`, requiring and invoking the module's `overlay` procedure. -/
def overlay (ctx : Ctx) (targetVersion : Option String) : OpOut Unit :=
  let insp := getSchemaVersion ctx
  match insp.result with
  | .error e => ⟨insp.trace, .error e⟩
  | .ok none => ⟨insp.trace, .error (.commandError .noSchemaInstalled)⟩
  | .ok (some currentVersion) =>
    if targetVersion = some currentVersion then
      ⟨insp.trace, .error (.commandError (.alreadyAtVersion currentVersion))⟩
    else
      match resolveTarget ctx targetVersion with
      | none => ⟨insp.trace, .error .indexError⟩
      | some tv =>
        match ctx.findModule tv with
        | none => ⟨insp.trace, .error (.importError tv)⟩
        | some m =>
          if m.hasOverlay then
            let run := runMigration m.overlayRaises (.moduleOverlay tv currentVersion)
            ⟨insp.trace ++ run.trace, run.result⟩
          else
            ⟨insp.trace, .error (.commandError (.unsupportedOperation tv "overlay"))⟩

/-- `if trimVersion is None: trimVersion = refVersMod.previousVersion`
(`AttributeError` when the module lacks the attribute). -/
def resolveTrimVersion (m : VersionModule) (trimVersion : Option String) :
    Except OpErr String :=
  match trimVersion with
  | some v => .ok v
  | none =>
    match m.previousVersion with
    | some pv => .ok pv
    | none => .error (.attributeError "previousVersion")

/-- The part of `trim` after the reference version is known: import the
reference module, require its `trim` attribute, default the trim version,
then ask the confirmation gate. A negative answer logs a cancellation and
returns. An affirmative answer evaluates `closing(getConnection())` — but
`getConnection` is an undefined name in both source files (the other
operations use `getMysqlConnection`), so a `NameError` is raised before any
connection is opened and the module's trim procedure is never invoked. -/
def trimBody (ctx : Ctx) (tr : List Ev) (referenceVersion : String)
    (trimVersion : Option String) : OpOut Unit :=
  match ctx.findModule referenceVersion with
  | none => ⟨tr, .error (.importError referenceVersion)⟩
  | some m =>
    if m.hasTrim then
      match resolveTrimVersion m trimVersion with
      | .error e => ⟨tr, .error e⟩
      | .ok _tv =>
        if ctx.confirmAnswer then
          ⟨tr, .error (.nameError "getConnection")⟩
        else
          ⟨tr ++ [.logCancel], .ok ()⟩
    else
      ⟨tr, .error (.commandError (.unsupportedOperation referenceVersion "trim"))⟩

/-- `CommandLinePlugin.trim(referenceVersion=None, trimVersion=None)`: an
omitted reference version is read from the Version Inspector (errors
propagate; `None` raises no-schema), then `trimBody` runs. -/
def trim (ctx : Ctx) (referenceVersion trimVersion : Option String) :
    OpOut Unit :=
  match referenceVersion with
  | some rv => trimBody ctx [] rv trimVersion
  | none =>
    let insp := getSchemaVersion ctx
    match insp.result with
    | .error e => ⟨insp.trace, .error e⟩
    | .ok none => ⟨insp.trace, .error (.commandError .noSchemaInstalled)⟩
    | .ok (some rv) => trimBody ctx insp.trace rv trimVersion

/-! ## Derived notions used by the claim statements -/

/-- Every opened connection of each kind is matched by a close: scoped
acquisition with release on all exit paths. -/
def connBalanced (tr : List Ev) : Bool :=
  (tr.count (.connOpened .inspection) == tr.count (.connClosed .inspection)) &&
  (tr.count (.connOpened .migration) == tr.count (.connClosed .migration))

/-- Whether a fixture event is an insert-statement execution on the current
connection. -/
def isExec : FixEvent → Bool
  | .exec _ _ => true
  | _ => false

/-- The insert-statement executions among a list of fixture events. -/
def execEvents (evs : List FixEvent) : List FixEvent := evs.filter isExec

/-- Concatenation of the images of a list under a list-valued function. -/
def concatMapL {α β : Type} (f : α → List β) : List α → List β
  | [] => []
  | x :: xs => f x ++ concatMapL f xs

/-- The uniqueness spec declares no conflicts at all. -/
def noConflicts (u : UniqSpec) : Prop := ∀ t r1 r2, u t r1 r2 = false

/-- The driver can bind this row's insert statement (placeholder and
parameter counts agree). -/
def rowBindable (t : String) (row : RowData) : Prop :=
  bindOk (rowInsertQuery t (insertColumns row)) (insertParams row) = true

/-- The execution events `_installFixture` performs for the listed tables of
a flat fixture, in order. -/
def execTraceOf (fx : SubFixture) (order : List String) : List FixEvent :=
  concatMapL (fun t => ((fx.tables.lookup t).getD []).map (FixEvent.exec t)) order

/-- The committed rows `_installFixture` adds for the listed tables of a flat
fixture, in order. -/
def insertedOf (fx : SubFixture) (order : List String) : DBState :=
  concatMapL (fun t => ((fx.tables.lookup t).getD []).map (fun r => (t, r))) order

/-! ## Concrete contexts for counterexamples and witnesses -/

/-- A version module supporting only trim, declaring previous version 1. -/
def trimOnlyMod : VersionModule :=
  { hasUpgrade := false, hasOverlay := false, hasTrim := true,
    upgradeRaises := false, overlayRaises := false, trimRaises := false,
    previousVersion := some "1" }

/-- A version module supporting upgrade and overlay. -/
def upgradeMod : VersionModule :=
  { hasUpgrade := true, hasOverlay := true, hasTrim := false,
    upgradeRaises := false, overlayRaises := false, trimRaises := false,
    previousVersion := none }

/-- Installed at version 2 of registry 1,2; module v2 is trim-capable;
operator answers yes at the gate. -/
def ctxTrimYes : Ctx :=
  { versions := ["1", "2"],
    findModule := fun v => if v = "2" then some trimOnlyMod else none,
    metadataQuery := .rows [{ attrName := "version", value := "2" }],
    confirmAnswer := true }

/-- Same as `ctxTrimYes` but the operator answers no at the gate. -/
def ctxTrimNo : Ctx := { ctxTrimYes with confirmAnswer := false }

/-- Installed at version 2, the latest of registry 1,2; module v2 supports
upgrade and overlay. -/
def ctxAtLatest : Ctx :=
  { versions := ["1", "2"],
    findModule := fun v => if v = "2" then some upgradeMod else none,
    metadataQuery := .rows [{ attrName := "version", value := "2" }],
    confirmAnswer := true }

/-- No schema installed (metadata table absent: engine error 1146). -/
def ctxNoSchema : Ctx :=
  { versions := ["1", "2"], findModule := fun _ => none,
    metadataQuery := .programmingError 1146, confirmAnswer := true }

/-! ## Claims -/

/-- C1: the claim says a confirmed trim opens a fresh scoped connection and
invokes the reference module's trim procedure with it and the trimVersion.
The code instead evaluates `closing(getConnection())` where `getConnection`
is an undefined name (both implementations; the other operations use
`getMysqlConnection`), so on the confirmed path — reference version 2
resolved to a trim-capable module, trimVersion defaulted from its
`previousVersion`, gate answered yes — a `NameError` is raised, no
connection is ever opened, and the trim procedure is never invoked: the
trace is empty. -/
theorem trim_confirmed_raises_nameError :
    trim ctxTrimYes (some "2") none =
      { trace := [], result := .error (.nameError "getConnection") } := by
  rfl

/-- C2 counterexample: with registry 1,2, current version 2 (the latest) and
an upgrade-capable v2 module, `upgrade` with the target version omitted does
NOT fail with the already-at-version error: the equality check runs before
the omitted target is defaulted, so the operation dispatches the module's
upgrade with `fromVersion = "2"` on a migration connection and succeeds. -/
theorem upgrade_omitted_target_at_latest_dispatches :
    upgrade ctxAtLatest none =
      { trace := inspTrace ++
          [.connOpened .migration, .moduleUpgrade "2" "2", .connClosed .migration],
        result := .ok () } ∧
    (upgrade ctxAtLatest none).result ≠
      .error (.commandError (.alreadyAtVersion "2")) := by
  exact ⟨rfl, by decide⟩

/-- C2 amended: the current version is read first and the no-schema error
raised if it is `None`; the equality check against the SUPPLIED target runs
BEFORE the omitted target is defaulted, so a supplied target equal to the
current version fails with the already-at-version error, while an omitted
target defaults to the registry's last version after the check — and when
that equals the current version the upgrade is still dispatched, with
`fromVersion = targetVersion = currentVersion`, rather than rejected. -/
theorem upgrade_equality_check_precedes_defaulting (ctx : Ctx)
    (t : Option String) (r : MetaRow) (rs : List MetaRow) (m : VersionModule) :
    (ctx.metadataQuery = .programmingError 1146 →
      (upgrade ctx t).result = .error (.commandError .noSchemaInstalled)) ∧
    (ctx.metadataQuery = .rows (r :: rs) → t = some r.value →
      upgrade ctx t =
        { trace := inspTrace,
          result := .error (.commandError (.alreadyAtVersion r.value)) }) ∧
    (ctx.metadataQuery = .rows (r :: rs) →
      ctx.versions.getLast? = some r.value →
      ctx.findModule r.value = some m →
      m.hasUpgrade = true → m.upgradeRaises = false →
      upgrade ctx none =
        { trace := inspTrace ++
            [.connOpened .migration, .moduleUpgrade r.value r.value,
             .connClosed .migration],
          result := .ok () }) := by
  refine ⟨fun h1 => ?_, fun h1 h2 => ?_, fun h1 h2 h3 h4 h5 => ?_⟩
  · simp [upgrade, getSchemaVersion, h1]
  · subst h2
    simp [upgrade, getSchemaVersion, h1]
  · simp [upgrade, getSchemaVersion, resolveTarget, runMigration, h1, h2, h3, h4, h5]

/-- Witness for the C2 amended theorem at concrete contexts: upgrading to
the explicit target "2" while version 2 is installed is rejected, and with
no schema installed the no-schema error is raised. -/
theorem upgrade_equality_check_precedes_defaulting_witness :
    (upgrade ctxAtLatest (some "2")).result =
      .error (.commandError (.alreadyAtVersion "2")) ∧
    (upgrade ctxNoSchema none).result =
      .error (.commandError .noSchemaInstalled) := by
  constructor
  · have h := (upgrade_equality_check_precedes_defaulting ctxAtLatest (some "2")
      { attrName := "version", value := "2" } [] upgradeMod).2.1 rfl rfl
    rw [h]
  · exact (upgrade_equality_check_precedes_defaulting ctxNoSchema none
      { attrName := "version", value := "2" } [] upgradeMod).1 rfl

/-- C4: `getSchemaVersion` returns `None` exactly when the metadata query
fails with the engine's undefined-table error 1146; a returned row yields
its `value` field; success with zero rows fails with the schema-read
`CommandError`; a `ProgrammingError` with any other code, or any other
query failure, propagates unchanged. -/
theorem getSchemaVersion_spec (ctx : Ctx) :
    ((getSchemaVersion ctx).result = .ok none ↔
      ctx.metadataQuery = .programmingError 1146) ∧
    (∀ r rs, ctx.metadataQuery = .rows (r :: rs) →
      (getSchemaVersion ctx).result = .ok (some r.value)) ∧
    (ctx.metadataQuery = .rows [] →
      (getSchemaVersion ctx).result = .error (.commandError .schemaReadError)) ∧
    (∀ code, code ≠ 1146 → ctx.metadataQuery = .programmingError code →
      (getSchemaVersion ctx).result = .error (.dbError code)) ∧
    (ctx.metadataQuery = .otherError →
      (getSchemaVersion ctx).result = .error .otherDbError) := by
  refine ⟨?_, fun r rs h => ?_, fun h => ?_, fun code hc h => ?_, fun h => ?_⟩
  · constructor
    · intro h
      cases hq : ctx.metadataQuery with
      | rows rs =>
        cases rs with
        | nil => simp [getSchemaVersion, hq] at h
        | cons r rest => simp [getSchemaVersion, hq] at h
      | programmingError code =>
        by_cases hc : code = 1146
        · rw [hc]
        · simp [getSchemaVersion, hq, hc] at h
      | otherError => simp [getSchemaVersion, hq] at h
    · intro h
      simp [getSchemaVersion, h]
  · simp [getSchemaVersion, h]
  · simp [getSchemaVersion, h]
  · simp [getSchemaVersion, h, hc]
  · simp [getSchemaVersion, h]

/-- Witness for C4 at concrete contexts: with the metadata table absent the
result is `None`, and with a version row present the stored value "2" is
returned. -/
theorem getSchemaVersion_spec_witness :
    (getSchemaVersion ctxNoSchema).result = .ok none ∧
    (getSchemaVersion ctxTrimYes).result = .ok (some "2") := by
  constructor
  · exact (getSchemaVersion_spec ctxNoSchema).1.mpr rfl
  · exact (getSchemaVersion_spec ctxTrimYes).2.1
      { attrName := "version", value := "2" } [] rfl

/-- Events that open or close a connection. -/
def isConnEv : Ev → Bool
  | .connOpened _ => true
  | .connClosed _ => true
  | _ => false

/-- A scoped migration invocation after an inspection leaves a balanced
trace, whatever (non-connection) module event it wraps. -/
theorem connBalanced_insp_mig (ev : Ev) (h : isConnEv ev = false) :
    connBalanced (inspTrace ++
      [.connOpened .migration, ev, .connClosed .migration]) = true := by
  cases ev <;>
    simp_all [connBalanced, inspTrace, isConnEv, List.count_cons, List.count_nil]

/-- C5: whenever the resolved version module lacks the needed capability,
upgrade, overlay and trim each fail with the `CommandError` naming that
version and capability, and no migration connection is ever opened (for
upgrade and overlay the only connection in the trace is the inspection one;
rejected trims open no connection at all, whether the reference version was
supplied or defaulted from the inspector). -/
theorem missing_capability_rejected (ctx : Ctx) (t tvOpt : Option String)
    (r : MetaRow) (rs : List MetaRow) (tv rv : String) (m : VersionModule) :
    (ctx.metadataQuery = .rows (r :: rs) → t ≠ some r.value →
      resolveTarget ctx t = some tv → ctx.findModule tv = some m →
      m.hasUpgrade = false →
      upgrade ctx t =
        { trace := inspTrace,
          result := .error (.commandError (.unsupportedOperation tv "upgrade")) } ∧
      Ev.connOpened .migration ∉ (upgrade ctx t).trace) ∧
    (ctx.metadataQuery = .rows (r :: rs) → t ≠ some r.value →
      resolveTarget ctx t = some tv → ctx.findModule tv = some m →
      m.hasOverlay = false →
      overlay ctx t =
        { trace := inspTrace,
          result := .error (.commandError (.unsupportedOperation tv "overlay")) } ∧
      Ev.connOpened .migration ∉ (overlay ctx t).trace) ∧
    (ctx.findModule rv = some m → m.hasTrim = false →
      trim ctx (some rv) tvOpt =
        { trace := [],
          result := .error (.commandError (.unsupportedOperation rv "trim")) } ∧
      Ev.connOpened .migration ∉ (trim ctx (some rv) tvOpt).trace) ∧
    (ctx.metadataQuery = .rows (r :: rs) → ctx.findModule r.value = some m →
      m.hasTrim = false →
      trim ctx none tvOpt =
        { trace := inspTrace,
          result := .error (.commandError (.unsupportedOperation r.value "trim")) } ∧
      Ev.connOpened .migration ∉ (trim ctx none tvOpt).trace) := by
  refine ⟨fun h1 h2 h3 h4 h5 => ?_, fun h1 h2 h3 h4 h5 => ?_,
    fun h4 h5 => ?_, fun h1 h4 h5 => ?_⟩
  · have he : upgrade ctx t =
        { trace := inspTrace,
          result := .error (.commandError (.unsupportedOperation tv "upgrade")) } := by
      simp [upgrade, getSchemaVersion, h1, h2, h3, h4, h5]
    refine ⟨he, ?_⟩
    rw [he]
    show Ev.connOpened .migration ∉ inspTrace
    decide
  · have he : overlay ctx t =
        { trace := inspTrace,
          result := .error (.commandError (.unsupportedOperation tv "overlay")) } := by
      simp [overlay, getSchemaVersion, h1, h2, h3, h4, h5]
    refine ⟨he, ?_⟩
    rw [he]
    show Ev.connOpened .migration ∉ inspTrace
    decide
  · have he : trim ctx (some rv) tvOpt =
        { trace := [],
          result := .error (.commandError (.unsupportedOperation rv "trim")) } := by
      simp [trim, trimBody, h4, h5]
    refine ⟨he, ?_⟩
    rw [he]
    show Ev.connOpened .migration ∉ []
    decide
  · have he : trim ctx none tvOpt =
        { trace := inspTrace,
          result := .error (.commandError (.unsupportedOperation r.value "trim")) } := by
      simp [trim, trimBody, getSchemaVersion, h1, h4, h5]
    refine ⟨he, ?_⟩
    rw [he]
    show Ev.connOpened .migration ∉ inspTrace
    decide

/-- Installed at version 1 of registry 1,2; module v2 supports only trim. -/
def ctxV1TrimReg : Ctx :=
  { versions := ["1", "2"],
    findModule := fun v => if v = "2" then some trimOnlyMod else none,
    metadataQuery := .rows [{ attrName := "version", value := "1" }],
    confirmAnswer := true }

/-- Witness for C5 at concrete contexts: trimming with reference version 2
whose module lacks trim, and upgrading to version 2 whose module lacks
upgrade, are both rejected naming the version and capability. -/
theorem missing_capability_rejected_witness :
    (trim ctxAtLatest (some "2") none).result =
      .error (.commandError (.unsupportedOperation "2" "trim")) ∧
    (upgrade ctxV1TrimReg (some "2")).result =
      .error (.commandError (.unsupportedOperation "2" "upgrade")) := by
  constructor
  · have h := ((missing_capability_rejected ctxAtLatest (some "2") none
      { attrName := "version", value := "2" } [] "2" "2" upgradeMod).2.2.1
      rfl rfl).1
    rw [h]
  · have h := ((missing_capability_rejected ctxV1TrimReg (some "2") none
      { attrName := "version", value := "1" } [] "2" "2" trimOnlyMod).1
      rfl (by decide) rfl rfl rfl).1
    rw [h]

/-- C6: a trim whose confirmation gate is answered negatively is abandoned:
it returns successfully with the cancellation logged, invokes no module trim
procedure, opens no migration connection, and performs no database mutation
(the trace holds no module invocation at all, so the metadata version is
untouched); this holds both for a supplied reference version (trace exactly
the cancellation log) and one defaulted from the inspector (trace exactly
the scoped inspection followed by the cancellation log). -/
theorem trim_negative_confirmation_abandons (ctx : Ctx) (rv v : String)
    (tvOpt : Option String) (m : VersionModule) (r : MetaRow) (rs : List MetaRow)
    (hno : ctx.confirmAnswer = false)
    (hm : ctx.findModule rv = some m) (ht : m.hasTrim = true)
    (htv : resolveTrimVersion m tvOpt = .ok v) :
    trim ctx (some rv) tvOpt = { trace := [.logCancel], result := .ok () } ∧
    (ctx.metadataQuery = .rows (r :: rs) → r.value = rv →
      trim ctx none tvOpt =
        { trace := inspTrace ++ [.logCancel], result := .ok () }) ∧
    (∀ a b, Ev.moduleTrim a b ∉ (trim ctx (some rv) tvOpt).trace) ∧
    Ev.connOpened .migration ∉ (trim ctx (some rv) tvOpt).trace := by
  have he : trim ctx (some rv) tvOpt = { trace := [.logCancel], result := .ok () } := by
    simp [trim, trimBody, hno, hm, ht, htv]
  refine ⟨he, fun h1 h2 => ?_, fun a b => ?_, ?_⟩
  · subst h2
    simp [trim, trimBody, getSchemaVersion, hno, hm, ht, htv, h1]
  · rw [he]; simp
  · rw [he]; decide

/-- Witness for C6: with version 2 installed, a trim-capable v2 module and a
negative answer at the gate, trim returns with only the cancellation logged,
for both a supplied and a defaulted reference version. -/
theorem trim_negative_confirmation_abandons_witness :
    trim ctxTrimNo (some "2") none = { trace := [.logCancel], result := .ok () } ∧
    trim ctxTrimNo none none =
      { trace := inspTrace ++ [.logCancel], result := .ok () } := by
  have h := trim_negative_confirmation_abandons ctxTrimNo "2" "1" none
    trimOnlyMod { attrName := "version", value := "2" } [] rfl rfl rfl rfl
  exact ⟨h.1, h.2.1 rfl rfl⟩

/-- The scoped inspection trace is connection-balanced. -/
theorem insp_balanced : connBalanced inspTrace = true := by decide

/-- Every upgrade trace is connection-balanced, whatever the context. -/
theorem connBalanced_upgrade (ctx : Ctx) (t : Option String) :
    connBalanced (upgrade ctx t).trace = true := by
  unfold upgrade
  cases hq : ctx.metadataQuery with
  | otherError => simp only [getSchemaVersion, hq]; exact insp_balanced
  | programmingError code =>
    by_cases hc : code = 1146
    · subst hc
      simp only [getSchemaVersion, hq]
      exact insp_balanced
    · simp only [getSchemaVersion, hq, if_neg hc]
      exact insp_balanced
  | rows rs =>
    cases rs with
    | nil => simp only [getSchemaVersion, hq]; exact insp_balanced
    | cons r rest =>
      simp only [getSchemaVersion, hq, List.head?]
      by_cases ht : t = some r.value
      · simp only [if_pos ht]; exact insp_balanced
      · simp only [if_neg ht]
        cases hrt : resolveTarget ctx t with
        | none => exact insp_balanced
        | some tv =>
          simp only []
          cases hm : ctx.findModule tv with
          | none => exact insp_balanced
          | some m =>
            simp only []
            by_cases hup : m.hasUpgrade = true
            · simp only [hup, if_pos rfl]
              exact connBalanced_insp_mig (.moduleUpgrade tv r.value) rfl
            · simp only [if_neg hup]
              exact insp_balanced

/-- Every overlay trace is connection-balanced, whatever the context. -/
theorem connBalanced_overlay (ctx : Ctx) (t : Option String) :
    connBalanced (overlay ctx t).trace = true := by
  unfold overlay
  cases hq : ctx.metadataQuery with
  | otherError => simp only [getSchemaVersion, hq]; exact insp_balanced
  | programmingError code =>
    by_cases hc : code = 1146
    · subst hc
      simp only [getSchemaVersion, hq]
      exact insp_balanced
    · simp only [getSchemaVersion, hq, if_neg hc]
      exact insp_balanced
  | rows rs =>
    cases rs with
    | nil => simp only [getSchemaVersion, hq]; exact insp_balanced
    | cons r rest =>
      simp only [getSchemaVersion, hq, List.head?]
      by_cases ht : t = some r.value
      · simp only [if_pos ht]; exact insp_balanced
      · simp only [if_neg ht]
        cases hrt : resolveTarget ctx t with
        | none => exact insp_balanced
        | some tv =>
          simp only []
          cases hm : ctx.findModule tv with
          | none => exact insp_balanced
          | some m =>
            simp only []
            by_cases hov : m.hasOverlay = true
            · simp only [hov, if_pos rfl]
              exact connBalanced_insp_mig (.moduleOverlay tv r.value) rfl
            · simp only [if_neg hov]
              exact insp_balanced

/-- Every trim trace is connection-balanced, whatever the context (the
confirmed path raises before opening anything). -/
theorem connBalanced_trim (ctx : Ctx) (rv tv : Option String) :
    connBalanced (trim ctx rv tv).trace = true := by
  have hbody : ∀ (tr : List Ev) (v : String),
      connBalanced tr = true →
      connBalanced (tr ++ [Ev.logCancel]) = true →
      connBalanced (trimBody ctx tr v tv).trace = true := by
    intro tr v h1 h2
    unfold trimBody
    cases hm : ctx.findModule v with
    | none => exact h1
    | some m =>
      simp only []
      by_cases ht : m.hasTrim = true
      · simp only [ht, if_pos rfl]
        cases hv : resolveTrimVersion m tv with
        | error e => exact h1
        | ok w =>
          simp only []
          by_cases hcf : ctx.confirmAnswer = true
          · simp only [hcf, if_pos rfl]; exact h1
          · simp only [if_neg hcf]; exact h2
      · simp only [if_neg ht]; exact h1
  unfold trim
  cases rv with
  | some v => exact hbody [] v (by decide) (by decide)
  | none =>
    simp only []
    cases hq : ctx.metadataQuery with
    | otherError => simp only [getSchemaVersion, hq]; exact insp_balanced
    | programmingError code =>
      by_cases hc : code = 1146
      · subst hc
        simp only [getSchemaVersion, hq]
        exact insp_balanced
      · simp only [getSchemaVersion, hq, if_neg hc]
        exact insp_balanced
    | rows rs =>
      cases rs with
      | nil => simp only [getSchemaVersion, hq]; exact insp_balanced
      | cons r rest =>
        simp only [getSchemaVersion, hq, List.head?]
        exact hbody inspTrace r.value (by decide) (by decide)

/-- C9: upgrade, overlay and the version inspector do release every
connection they acquire on every exit path, including when the invoked
module raises (their traces are connection-balanced for every context); but
the claim's assertion that trim opens a fresh migration connection is false:
a confirmed trim evaluates the undefined name `getConnection`, raising a
`NameError` before any migration connection exists, so its trace never
contains a migration open at all. -/
theorem connections_released_but_trim_never_opens :
    (∀ ctx t, connBalanced (upgrade ctx t).trace = true) ∧
    (∀ ctx t, connBalanced (overlay ctx t).trace = true) ∧
    (∀ ctx, connBalanced (getSchemaVersion ctx).trace = true) ∧
    (∀ ctx rv tv, connBalanced (trim ctx rv tv).trace = true) ∧
    ((trim ctxTrimYes (some "2") none).result = .error (.nameError "getConnection") ∧
      (trim ctxTrimYes (some "2") none).trace.count (Ev.connOpened .migration) = 0) := by
  exact ⟨connBalanced_upgrade, connBalanced_overlay,
    fun ctx => insp_balanced, connBalanced_trim, by decide, by decide⟩

/-! ## Placeholder counting for the generated insert statements -/

theorem pctCount_append (a b : String) :
    pctCount (a ++ b) = pctCount a + pctCount b := by
  simp [pctCount, String.data_append, List.count_append]

theorem pctCount_repeatStr_commaPh (n : Nat) :
    pctCount (repeatStr ",%s" n) = n := by
  induction n with
  | zero => decide
  | succ k ih =>
    have h1 : pctCount ",%s" = 1 := by decide
    rw [repeatStr, pctCount_append, ih, h1]
    omega

theorem pctCount_valuesPlaceholders (n : Nat) :
    pctCount (valuesPlaceholders n) = 1 + (n - 1) := by
  have h1 : pctCount "%s" = 1 := by decide
  rw [valuesPlaceholders, pctCount_append, pctCount_repeatStr_commaPh, h1]

theorem pctCount_joinComma : ∀ ks : List String,
    (∀ k ∈ ks, pctCount k = 0) → pctCount (joinComma ks) = 0
  | [], _ => by decide
  | [k], h => by simpa [joinComma] using h k (by simp)
  | k :: k2 :: rest, h => by
    have h1 := h k (by simp)
    have h2 := pctCount_joinComma (k2 :: rest)
      (fun x hx => h x (List.mem_cons_of_mem _ hx))
    have hc : pctCount "," = 0 := by decide
    simp [joinComma, pctCount_append, h1, h2, hc]

theorem pctCount_rowInsertQuery (t : String) (ks : List String)
    (ht : pctCount t = 0) (hk : ∀ k ∈ ks, pctCount k = 0) :
    pctCount (rowInsertQuery t ks) = 1 + (ks.length - 1) := by
  have c1 : pctCount "INSERT INTO " = 0 := by decide
  have c2 : pctCount " (" = 0 := by decide
  have c3 : pctCount ") VALUES (" = 0 := by decide
  have c4 : pctCount ")" = 0 := by decide
  simp [rowInsertQuery, pctCount_append, ht, pctCount_joinComma ks hk,
    pctCount_valuesPlaceholders, c1, c2, c3, c4]

/-- C10: for a fixture row whose table and field names are free of the
placeholder marker, the generated insert statement holds `1 + (n-1)`
placeholders for an n-field row — exactly one per field when the row is
nonempty, in which case the driver binds the parameter tuple, which lists
the row's values in exactly the same order as the field names in the column
list; for a zero-field row the statement still holds one placeholder while
the parameter tuple is empty, so binding fails and the row can never be
inserted successfully. -/
theorem insert_statement_placeholders (tableName : String) (row : RowData)
    (ht : pctCount tableName = 0)
    (hk : ∀ k ∈ insertColumns row, pctCount k = 0) :
    pctCount (rowInsertQuery tableName (insertColumns row)) = 1 + (row.length - 1) ∧
    (1 ≤ row.length →
      pctCount (rowInsertQuery tableName (insertColumns row)) = row.length ∧
      bindOk (rowInsertQuery tableName (insertColumns row)) (insertParams row) = true) ∧
    (∀ i : Nat,
      (insertColumns row)[i]? = (row[i]?).map Prod.fst ∧
      (insertParams row)[i]? = (row[i]?).map Prod.snd) ∧
    (row = [] →
      pctCount (rowInsertQuery tableName (insertColumns row)) = 1 ∧
      insertParams row = [] ∧
      bindOk (rowInsertQuery tableName (insertColumns row)) (insertParams row) = false) := by
  have hp := pctCount_rowInsertQuery tableName (insertColumns row) ht hk
  have hl : (insertColumns row).length = row.length := by simp [insertColumns]
  rw [hl] at hp
  refine ⟨hp, fun h1 => ⟨by omega, ?_⟩, fun i => ?_, fun h0 => ?_⟩
  · have hlp : (insertParams row).length = row.length := by simp [insertParams]
    simp [bindOk, hp, hlp]
    omega
  · constructor
    · simp [insertColumns, List.getElem?_map]
    · simp [insertParams, List.getElem?_map]
  · subst h0
    refine ⟨by simpa using hp, rfl, ?_⟩
    simp [bindOk, insertParams]
    omega

/-- Witness for C10: the two-field row a=1, b=2 of table t yields a
statement with two placeholders that binds its two parameters, and the
zero-field row yields a one-placeholder statement that cannot bind. -/
theorem insert_statement_placeholders_witness :
    pctCount (rowInsertQuery "t" (insertColumns [("a", JVal.num 1), ("b", JVal.num 2)])) = 2 ∧
    bindOk (rowInsertQuery "t" (insertColumns [("a", JVal.num 1), ("b", JVal.num 2)]))
      (insertParams [("a", JVal.num 1), ("b", JVal.num 2)]) = true ∧
    bindOk (rowInsertQuery "t" (insertColumns ([] : RowData)))
      (insertParams ([] : RowData)) = false := by
  have h2 := insert_statement_placeholders "t" [("a", JVal.num 1), ("b", JVal.num 2)]
    (by decide) (by decide)
  have h0 := insert_statement_placeholders "t" [] (by decide) (by decide)
  exact ⟨(h2.2.1 (by decide)).1, (h2.2.1 (by decide)).2, (h0.2.2.2 rfl).2.2⟩

/-! ## Fixture installation lemmas -/

/-- A uniqueness spec declaring no constraints at all. -/
def u0 : UniqSpec := fun _ _ _ => false

/-- When every row binds and the uniqueness spec declares no conflicts, the
row loop executes one insert per row in row order and commits them all. -/
theorem installRows_clean (u : UniqSpec) (ic : Bool) (t : String)
    (hu : ∀ tn r1 r2, u tn r1 r2 = false) :
    ∀ (rows : List RowData) (db : DBState),
      (∀ row ∈ rows, rowBindable t row) →
      installRows u ic t rows db =
        ⟨db ++ rows.map (fun r => (t, r)), rows.map (FixEvent.exec t), none⟩
  | [], db, _ => by simp [installRows]
  | row :: rest, db, h => by
    have hb : bindOk (rowInsertQuery t (insertColumns row)) (insertParams row) = true :=
      h row (List.mem_cons_self _ _)
    have hrec := installRows_clean u ic t hu rest (db ++ [(t, row)])
      (fun r hr => h r (List.mem_cons_of_mem _ hr))
    simp [installRows, cursorExecuteInsert, hb, hu, hrec]

/-- When every listed table is present with bindable rows and no conflicts
are declared, the table loop executes and commits every listed table's rows
in order. -/
theorem installTables_clean (u : UniqSpec) (ic : Bool) (fx : SubFixture)
    (hu : ∀ tn r1 r2, u tn r1 r2 = false) :
    ∀ (order : List String) (db : DBState),
      (∀ t ∈ order, ∃ rows, fx.tables.lookup t = some rows ∧
        ∀ row ∈ rows, rowBindable t row) →
      installTables u ic fx order db =
        ⟨db ++ insertedOf fx order, execTraceOf fx order, none⟩
  | [], db, _ => by simp [installTables, insertedOf, execTraceOf, concatMapL]
  | t :: rest, db, h => by
    obtain ⟨rows, hlk, hb⟩ := h t (List.mem_cons_self _ _)
    have h1 := installRows_clean u ic t hu rows db hb
    have hrec := installTables_clean u ic fx hu rest (db ++ rows.map (fun r => (t, r)))
      (fun x hx => h x (List.mem_cons_of_mem _ hx))
    simp [installTables, hlk, h1, hrec, insertedOf, execTraceOf, concatMapL]

/-- A fixture document lacking the tableOrder key: one table t with one
one-field row. -/
def noOrderDoc : TopDoc := [("t", .tables [[("a", JVal.num 1)]])]

/-- C3 counterexample: the claim says every row of every table is inserted
whether or not the document supplies an explicit ordering entry; but on a
document without a `tableOrder` key `_installFixture` returns immediately:
nothing is executed, nothing is committed. -/
theorem fixture_without_tableOrder_installs_nothing :
    installAFixture u0 false noOrderDoc [] = ⟨[], [], none⟩ ∧
    (installAFixture u0 false noOrderDoc []).events = [] ∧
    (installAFixture u0 false noOrderDoc []).db = [] :=
  ⟨rfl, rfl, rfl⟩

/-- C3 amended: for a fixture document without a `self` key the whole
document is the current application's table→rows mapping, but the explicit
table ordering is mandatory, not optional: without a `tableOrder` key no row
of any table is inserted; with one, exactly the tables listed in
`tableOrder` are processed in that order — for every listed table, one
parameterized insert per row in row order (shown here for bindable rows with
no uniqueness conflicts) — and tables not listed are skipped. -/
theorem flat_fixture_requires_tableOrder (u : UniqSpec) (ic : Bool)
    (fx : SubFixture) (db : DBState) (order : List String)
    (hu : ∀ tn r1 r2, u tn r1 r2 = false) :
    (fx.tableOrder = none → installFixtureFlat u ic fx db = ⟨db, [], none⟩) ∧
    (fx.tableOrder = some order →
      (∀ t ∈ order, ∃ rows, fx.tables.lookup t = some rows ∧
        ∀ row ∈ rows, rowBindable t row) →
      installFixtureFlat u ic fx db =
        ⟨db ++ insertedOf fx order, execTraceOf fx order, none⟩) := by
  constructor
  · intro h
    simp [installFixtureFlat, h]
  · intro h hall
    rw [installFixtureFlat, h]
    exact installTables_clean u ic fx hu order db hall

/-- Witness for the C3 amended theorem: a one-table document listing t in
its tableOrder installs exactly t's row, and the same document without the
ordering key installs nothing. -/
theorem flat_fixture_requires_tableOrder_witness :
    installFixtureFlat u0 false
      { tables := [("t", [[("a", JVal.num 1)]])], tableOrder := some ["t"] } [] =
      { db := [("t", [("a", JVal.num 1)])],
        events := [.exec "t" [("a", JVal.num 1)]], err := none } ∧
    installFixtureFlat u0 false
      { tables := [("t", [[("a", JVal.num 1)]])], tableOrder := none } [] =
      { db := [], events := [], err := none } := by
  constructor
  · have h := (flat_fixture_requires_tableOrder u0 false
      { tables := [("t", [[("a", JVal.num 1)]])], tableOrder := some ["t"] }
      [] ["t"] (fun _ _ _ => rfl)).2 rfl ?_
    · rw [h]; rfl
    · intro t ht
      have h1 : t = "t" := by simpa using ht
      subst h1
      refine ⟨[[("a", JVal.num 1)]], rfl, ?_⟩
      intro row hr
      have hrow : row = [("a", JVal.num 1)] := by simpa using hr
      subst hrow
      rfl
  · exact (flat_fixture_requires_tableOrder u0 false
      { tables := [("t", [[("a", JVal.num 1)]])], tableOrder := none }
      [] [] (fun _ _ _ => rfl)).1 rfl

/-- A unique constraint covering the whole row (the spec example's unique
key on (a,b)): two equal rows conflict. -/
def uWholeRow : UniqSpec := fun _ r1 r2 => r1 == r2

/-- The spec example's row a=1, b=2. -/
def rowAB : RowData := [("a", JVal.num 1), ("b", JVal.num 2)]

/-- The spec example's duplicate-row fixture document with tableOrder. -/
def dupDoc : TopDoc := [("t", .tables [rowAB, rowAB]), ("tableOrder", .order ["t"])]

/-- C7: on a uniqueness violation during fixture row insertion, with
ignoreConflicts the conflict is logged and loading continues with the next
row; without it the IntegrityError propagates (the spec's
FixtureConflictError), aborting the remaining inserts of the table while
the returned state is exactly the rows already committed before the
conflict (autocommit is on). On the spec's duplicate-row document under a
whole-row unique constraint, the second insert conflicts: without
ignoreConflicts the load fails with the conflict error and the table ends
with exactly one committed row; with it both inserts are attempted, the
conflict is logged, and the load succeeds with the same single committed
row. -/
theorem fixture_conflict_handling (u : UniqSpec) (t : String) (row : RowData)
    (rest : List RowData) (db : DBState)
    (hconf : cursorExecuteInsert u db t row = .error .integrityError) :
    (installRows u true t (row :: rest) db =
      { db := (installRows u true t rest db).db,
        events := .exec t row :: .logConflict t :: (installRows u true t rest db).events,
        err := (installRows u true t rest db).err }) ∧
    (installRows u false t (row :: rest) db =
      { db := db, events := [.exec t row], err := some .fixtureConflict }) ∧
    (installAFixture uWholeRow false dupDoc [] =
      { db := [("t", rowAB)], events := [.exec "t" rowAB, .exec "t" rowAB],
        err := some .fixtureConflict }) ∧
    (installAFixture uWholeRow true dupDoc [] =
      { db := [("t", rowAB)],
        events := [.exec "t" rowAB, .exec "t" rowAB, .logConflict "t"],
        err := none }) := by
  refine ⟨?_, ?_, by rfl, by rfl⟩
  · simp [installRows, hconf]
  · simp [installRows, hconf]

/-- Witness for C7: on the duplicate row already committed to t, the insert
reports the integrity violation and the non-tolerant row loop stops with
the conflict error and the single committed row. -/
theorem fixture_conflict_handling_witness :
    cursorExecuteInsert uWholeRow [("t", rowAB)] "t" rowAB = .error .integrityError ∧
    installRows uWholeRow false "t" [rowAB] [("t", rowAB)] =
      { db := [("t", rowAB)], events := [.exec "t" rowAB],
        err := some .fixtureConflict } := by
  have h := fixture_conflict_handling uWholeRow "t" rowAB [] [("t", rowAB)] (by rfl)
  exact ⟨by rfl, h.2.1⟩

/-- The events the multi-application branch emits for one foreign entry:
the temporary JSON file write and the operator prompt. -/
def foreignEvs (p : String × TopVal) : List FixEvent :=
  [.tempFileWrite p.1, .promptOperator p.1]

/-- A document whose entries are all foreign produces only temp-file writes
and prompts, leaving the database untouched. -/
theorem installMulti_foreign_only (u : UniqSpec) (ic : Bool) :
    ∀ (doc : TopDoc) (db : DBState), (∀ p ∈ doc, p.1 ≠ "self") →
      installMulti u ic doc db = ⟨db, concatMapL foreignEvs doc, none⟩
  | [], db, _ => by simp [installMulti, concatMapL]
  | (a, v) :: rest, db, h => by
    have ha : a ≠ "self" := h (a, v) (List.mem_cons_self _ _)
    have hrec := installMulti_foreign_only u ic rest db
      (fun p hp => h p (List.mem_cons_of_mem _ hp))
    simp [installMulti, ha, hrec, concatMapL, foreignEvs]

theorem execEvents_append (a b : List FixEvent) :
    execEvents (a ++ b) = execEvents a ++ execEvents b := by
  simp [execEvents, List.filter_append]

/-- Foreign entries contribute no insert execution at all. -/
theorem execEvents_foreign : ∀ doc : TopDoc,
    execEvents (concatMapL foreignEvs doc) = []
  | [] => by simp [concatMapL, execEvents]
  | p :: rest => by
    rw [concatMapL, execEvents_append, execEvents_foreign rest]
    simp [execEvents, foreignEvs, isExec]

/-- Each entry of a foreign-only event trace includes that entry's temp-file
write. -/
theorem mem_concatMapL_foreign : ∀ (doc : TopDoc) (p : String × TopVal),
    p ∈ doc → FixEvent.tempFileWrite p.1 ∈ concatMapL foreignEvs doc
  | [], p, hp => by simp at hp
  | q :: rest, p, hp => by
    rcases List.mem_cons.mp hp with h | h
    · subst h
      simp [concatMapL, foreignEvs]
    · simp only [concatMapL]
      exact List.mem_append_right _ (mem_concatMapL_foreign rest p h)

/-- Splitting a multi-application document around its self entry: foreign
entries before it pass the state through untouched, the self entry is
installed on the current connection, and (when that succeeds) the remaining
foreign entries only write temp files and prompt. -/
theorem installMulti_self_split (u : UniqSpec) (ic : Bool) (fxSelf : SubFixture)
    (post : TopDoc) (hpost : ∀ p ∈ post, p.1 ≠ "self") :
    ∀ (pre : TopDoc) (db : DBState), (∀ p ∈ pre, p.1 ≠ "self") →
      installMulti u ic (pre ++ ("self", TopVal.app fxSelf) :: post) db =
        (match (installFixtureFlat u ic fxSelf db).err with
         | some e =>
           { db := (installFixtureFlat u ic fxSelf db).db,
             events := concatMapL foreignEvs pre ++
               (installFixtureFlat u ic fxSelf db).events,
             err := some e }
         | none =>
           { db := (installFixtureFlat u ic fxSelf db).db,
             events := concatMapL foreignEvs pre ++
               (installFixtureFlat u ic fxSelf db).events ++
               concatMapL foreignEvs post,
             err := none })
  | [], db, _ => by
    cases he : (installFixtureFlat u ic fxSelf db).err with
    | some e => simp [installMulti, he, concatMapL]
    | none =>
      simp [installMulti, he, concatMapL,
        installMulti_foreign_only u ic post _ hpost]
  | (a, v) :: pre1, db, h => by
    have ha : a ≠ "self" := h (a, v) (List.mem_cons_self _ _)
    have hrec := installMulti_self_split u ic fxSelf post hpost pre1 db
      (fun p hp => h p (List.mem_cons_of_mem _ hp))
    cases he : (installFixtureFlat u ic fxSelf db).err with
    | some e =>
      rw [he] at hrec
      simp [installMulti, ha, hrec, concatMapL, foreignEvs, he]
    | none =>
      rw [he] at hrec
      simp [installMulti, ha, hrec, concatMapL, foreignEvs, he]

/-- C8 counterexample: on the claim's own document, with the self
sub-document as given (no tableOrder key), nothing at all is inserted into
t — the claim's assertion that t receives its row fails — while the foreign
entry is indeed only written to a temp file with a prompt. -/
theorem multi_fixture_example_inserts_nothing_into_t :
    installAFixture u0 false
      [("self", TopVal.app { tables := [("t", [[("a", JVal.num 1)]])], tableOrder := none }),
       ("otherApp", TopVal.app { tables := [("u", [[("b", JVal.num 2)]])], tableOrder := none })]
      [] =
      { db := [],
        events := [.tempFileWrite "otherApp", .promptOperator "otherApp"],
        err := none } ∧
    execEvents (installAFixture u0 false
      [("self", TopVal.app { tables := [("t", [[("a", JVal.num 1)]])], tableOrder := none }),
       ("otherApp", TopVal.app { tables := [("u", [[("b", JVal.num 2)]])], tableOrder := none })]
      []).events = [] :=
  ⟨rfl, rfl⟩

/-- C8 amended: in a document with a `self` key, only the self entry can
write through the current connection — every insert execution of the whole
load is one of the self entry's, the final database state is exactly the
self installation's, and each foreign entry is written to a temporary file
with an operator prompt (before the self entry unconditionally; after it
whenever the self installation did not error), never inserted. On the
claim's example document this means u is never written; t receives its row
only once the self sub-document also carries the mandatory tableOrder key,
as in the concrete conjunct. -/
theorem self_entry_only_writes_current_connection (u : UniqSpec) (ic : Bool)
    (db : DBState) (fxSelf : SubFixture) (pre post : TopDoc)
    (hpre : ∀ p ∈ pre, p.1 ≠ "self") (hpost : ∀ p ∈ post, p.1 ≠ "self") :
    execEvents (installAFixture u ic
        (pre ++ ("self", TopVal.app fxSelf) :: post) db).events =
      execEvents (installFixtureFlat u ic fxSelf db).events ∧
    (installAFixture u ic (pre ++ ("self", TopVal.app fxSelf) :: post) db).db =
      (installFixtureFlat u ic fxSelf db).db ∧
    (∀ p ∈ pre, FixEvent.tempFileWrite p.1 ∈
      (installAFixture u ic (pre ++ ("self", TopVal.app fxSelf) :: post) db).events) ∧
    ((installFixtureFlat u ic fxSelf db).err = none → ∀ p ∈ post,
      FixEvent.tempFileWrite p.1 ∈
        (installAFixture u ic (pre ++ ("self", TopVal.app fxSelf) :: post) db).events) ∧
    (installAFixture uWholeRow false
      [("self", TopVal.app { tables := [("t", [[("a", JVal.num 1)]])], tableOrder := some ["t"] }),
       ("otherApp", TopVal.app { tables := [("u", [[("b", JVal.num 2)]])], tableOrder := some ["u"] })]
      [] =
      { db := [("t", [("a", JVal.num 1)])],
        events := [.exec "t" [("a", JVal.num 1)], .tempFileWrite "otherApp",
          .promptOperator "otherApp"],
        err := none }) := by
  have hh : hasSelf (pre ++ ("self", TopVal.app fxSelf) :: post) = true := by
    simp [hasSelf]
  have hs := installMulti_self_split u ic fxSelf post hpost pre db hpre
  have ha : installAFixture u ic (pre ++ ("self", TopVal.app fxSelf) :: post) db =
      installMulti u ic (pre ++ ("self", TopVal.app fxSelf) :: post) db := by
    simp [installAFixture, hh]
  cases he : (installFixtureFlat u ic fxSelf db).err with
  | some e =>
    rw [he] at hs
    simp only [] at hs
    rw [ha, hs]
    refine ⟨?_, rfl, ?_, ?_, by rfl⟩
    · simp [execEvents_append, execEvents_foreign]
    · intro p hp
      exact List.mem_append_left _ (mem_concatMapL_foreign pre p hp)
    · intro hn
      exact Option.noConfusion hn
  | none =>
    rw [he] at hs
    simp only [] at hs
    rw [ha, hs]
    refine ⟨?_, rfl, ?_, ?_, by rfl⟩
    · simp [execEvents_append, execEvents_foreign]
    · intro p hp
      exact List.mem_append_left _
        (List.mem_append_left _ (mem_concatMapL_foreign pre p hp))
    · intro _ p hp
      exact List.mem_append_right _ (mem_concatMapL_foreign post p hp)

/-- Witness for the C8 amended theorem on the claim's document: the load's
insert executions are exactly those of the self entry's flat installation,
and the foreign entry's temp-file write appears in the event list. -/
theorem self_entry_only_writes_current_connection_witness :
    execEvents (installAFixture u0 false
      [("self", TopVal.app { tables := [("t", [[("a", JVal.num 1)]])], tableOrder := none }),
       ("otherApp", TopVal.app { tables := [("u", [[("b", JVal.num 2)]])], tableOrder := none })]
      []).events =
      execEvents (installFixtureFlat u0 false
        { tables := [("t", [[("a", JVal.num 1)]])], tableOrder := none } []).events ∧
    FixEvent.tempFileWrite "otherApp" ∈ (installAFixture u0 false
      [("self", TopVal.app { tables := [("t", [[("a", JVal.num 1)]])], tableOrder := none }),
       ("otherApp", TopVal.app { tables := [("u", [[("b", JVal.num 2)]])], tableOrder := none })]
      []).events := by
  have h := self_entry_only_writes_current_connection u0 false []
    { tables := [("t", [[("a", JVal.num 1)]])], tableOrder := none }
    []
    [("otherApp", TopVal.app { tables := [("u", [[("b", JVal.num 2)]])], tableOrder := none })]
    (fun p hp => by simp at hp)
    (fun p hp => by
      have h1 : p = ("otherApp",
          TopVal.app { tables := [("u", [[("b", JVal.num 2)]])], tableOrder := none }) := by
        simpa using hp
      subst h1
      decide)
  exact ⟨h.1, h.2.2.2.1 rfl
    ("otherApp", TopVal.app { tables := [("u", [[("b", JVal.num 2)]])], tableOrder := none })
    (by simp)⟩

end MySQLPlugin
